import Mathlib

/-!
# Sweet Shop Management System — verification of the inventory / auth core

Shallow embedding of the TypeScript backend:
* `entities/Sweet.ts` — the `Sweet` record and its `purchase` / `restock` methods;
* `services/SweetService.ts` — `findById`, `search`, `update`, `delete`,
  `purchase`, `restock` against a store of sweets;
* `services/AuthService.ts` — `register`, `login`, `verifyToken`;
* `middleware/auth.ts` — `adminOnly` role gate;
* `middleware/validators.ts` and `routes/sweets.ts` / auth routes — the request
  pipeline around the services.

The persistent store is modelled as a `List` of records keyed by `id`
(`repository.findOne` = `List.find?`, `repository.save` = replace-by-id).
TypeScript numbers holding integral quantities are `Int`; the `decimal(10,2)`
price column is `Int` in hundredths. Thrown `Error(message)` becomes
`Except String` carrying the exact message string from the source.
-/

namespace SweetShop

/-- Sweet categories (`entities/Sweet.ts`, `SweetCategory`). -/
inductive SweetCategory
  | chocolate
  | candy
  | cookie
  | cake
  | pastry
  | ice_cream
  | other
  deriving DecidableEq, Repr

/-- The `Sweet` entity (`entities/Sweet.ts`): price is the `decimal(10,2)`
column in hundredths, quantity the `integer` column. -/
structure Sweet where
  id : String
  name : String
  description : Option String
  category : SweetCategory
  price : Int
  quantity : Int
  imageUrl : Option String
  deriving DecidableEq, Repr

/-- Embeds `SweetService.findById`: `repository.findOne({ where: { id } })`. -/
def findById (db : List Sweet) (id : String) : Option Sweet :=
  db.find? (fun s => s.id == id)

/-- Embeds `repository.save(sweet)`: update the row whose primary key matches the
entity. -/
def saveSweet (db : List Sweet) (s : Sweet) : List Sweet :=
  db.map (fun t => if t.id == s.id then s else t)

/-- Embeds `Sweet.purchase` (entity method, `entities/Sweet.ts` lines 70–78):
reject non-positive amount, reject insufficient stock, else decrement. -/
def Sweet.purchase (s : Sweet) (amount : Int) : Except String Sweet :=
  if amount ≤ 0 then .error "Purchase amount must be positive"
  else if s.quantity < amount then .error "Insufficient stock"
  else .ok { s with quantity := s.quantity - amount }

/-- Embeds `Sweet.restock` (entity method, `entities/Sweet.ts` lines 84–89):
reject non-positive amount, else increment. -/
def Sweet.restock (s : Sweet) (amount : Int) : Except String Sweet :=
  if amount ≤ 0 then .error "Restock amount must be positive"
  else .ok { s with quantity := s.quantity + amount }

/-- Embeds `SweetService.purchase` (`SweetService.ts` lines 145–161): `findById`,
check the amount is positive, check stock, run the entity method, `save`.
A thrown error leaves the store unchanged (the save never runs). -/
def SweetService.purchase (db : List Sweet) (id : String) (quantity : Int) :
    Except String Sweet × List Sweet :=
  match findById db id with
  | none => (.error "Sweet not found", db)
  | some sweet =>
    if quantity ≤ 0 then (.error "Purchase quantity must be positive", db)
    else if sweet.quantity < quantity then (.error "Insufficient stock", db)
    else
      match sweet.purchase quantity with
      | .error e => (.error e, db)
      | .ok s => (.ok s, saveSweet db s)

/-- The service signature `purchase(id, quantity: number = 1)`: calling with the
amount unspecified is calling with `1`. -/
def SweetService.purchaseDefault (db : List Sweet) (id : String) :
    Except String Sweet × List Sweet :=
  SweetService.purchase db id 1

/-- Embeds `SweetService.restock` (`SweetService.ts` lines 169–181): `findById`,
check the amount is positive, run the entity method, `save`. -/
def SweetService.restock (db : List Sweet) (id : String) (quantity : Int) :
    Except String Sweet × List Sweet :=
  match findById db id with
  | none => (.error "Sweet not found", db)
  | some sweet =>
    if quantity ≤ 0 then (.error "Restock quantity must be positive", db)
    else
      match sweet.restock quantity with
      | .error e => (.error e, db)
      | .ok s => (.ok s, saveSweet db s)

/-- Substring test on character lists: does `pat` occur contiguously in the
second list? (Helper for the SQL `LIKE` semantics.) -/
def containsChars (pat : List Char) : List Char → Bool
  | [] => pat.isEmpty
  | c :: cs => pat.isPrefixOf (c :: cs) || containsChars pat cs

/-- ASCII lowercasing of a string, character by character (what both SQLite
`LIKE` and email case-normalization perform on ASCII letters). -/
def strLower (s : String) : String :=
  ⟨s.data.map Char.toLower⟩

/-- Embeds `Like('%pat%')` as SQLite evaluates it: `LIKE` is case-insensitive for
ASCII letters, so both sides are lowercased. -/
def likeContains (value pat : String) : Bool :=
  containsChars (strLower pat).data (strLower value).data

/-- Search filters (`SweetService.ts`, `SearchParams`). -/
structure SearchParams where
  name : Option String
  category : Option SweetCategory
  minPrice : Option Int
  maxPrice : Option Int
  deriving DecidableEq, Repr

/-- The WHERE clause built by `SweetService.search` (lines 85–111), as a
predicate on one row: `if (params.name)` is a JS truthiness test, so an empty
name string adds no condition; category is an equality condition; the price
condition is `Between` when both bounds are given (inclusive two-sided),
otherwise `MoreThanOrEqual` / `LessThanOrEqual`. -/
def matchesSearch (p : SearchParams) (s : Sweet) : Bool :=
  (match p.name with
   | some n => if n.isEmpty then true else likeContains s.name n
   | none => true)
  && (match p.category with
      | some c => s.category == c
      | none => true)
  && (match p.minPrice, p.maxPrice with
      | some lo, some hi => decide (lo ≤ s.price) && decide (s.price ≤ hi)
      | some lo, none => decide (lo ≤ s.price)
      | none, some hi => decide (s.price ≤ hi)
      | none, none => true)

/-- The `order: { name: 'ASC' }` ordering relation on rows. -/
def sweetNameLe (a b : Sweet) : Prop := a.name ≤ b.name

instance : DecidableRel sweetNameLe :=
  fun a b => inferInstanceAs (Decidable (a.name ≤ b.name))

instance : IsTotal Sweet sweetNameLe :=
  ⟨fun a b => le_total a.name b.name⟩

instance : IsTrans Sweet sweetNameLe :=
  ⟨fun _ _ _ h h2 => le_trans h h2⟩

/-- Embeds `SweetService.search`: rows satisfying every built condition, ordered by
name ascending. -/
def SweetService.search (db : List Sweet) (p : SearchParams) : List Sweet :=
  List.insertionSort sweetNameLe (db.filter (matchesSearch p))

/-- Partial update payload (`SweetService.ts`, `UpdateSweetData`): every field
optional; an absent field is left untouched. -/
structure UpdateSweetData where
  name : Option String
  description : Option String
  category : Option SweetCategory
  price : Option Int
  quantity : Option Int
  imageUrl : Option String
  deriving DecidableEq, Repr

/-- Embeds `Object.assign(sweet, data)` in `SweetService.update`: fields present in
the payload overwrite the record, absent fields are kept. -/
def applyUpdate (s : Sweet) (d : UpdateSweetData) : Sweet :=
  { s with
    name := d.name.getD s.name
    description := match d.description with
      | some v => some v
      | none => s.description
    category := d.category.getD s.category
    price := d.price.getD s.price
    quantity := d.quantity.getD s.quantity
    imageUrl := match d.imageUrl with
      | some v => some v
      | none => s.imageUrl }

/-- Embeds `SweetService.update` (lines 119–127): `findById`, merge via
`Object.assign`, `save`; `null` when the sweet does not exist. There is no
stock or role check on this path. -/
def SweetService.update (db : List Sweet) (id : String) (d : UpdateSweetData) :
    Option Sweet × List Sweet :=
  match findById db id with
  | none => (none, db)
  | some sweet =>
    let s := applyUpdate sweet d
    (some s, saveSweet db s)

/-- Embeds `SweetService.delete` (lines 134–137): `repository.delete(id)`, reporting
whether a row was affected. -/
def SweetService.delete (db : List Sweet) (id : String) : Bool × List Sweet :=
  (db.any (fun s => s.id == id), db.filter (fun s => !(s.id == id)))

/-! ## The purchase operation split at its suspension points

`SweetService.purchase` is an `async` function: it `await`s `findById`, then
validates against the returned snapshot, then `await`s `repository.save` of an
entity computed from that snapshot. Between the two awaits the event loop may
run other requests against the same store. `purchaseRead` is the first half
(the snapshot read); `purchaseCommit` is everything after it, applied to the
store as it stands at commit time. Sequential (uninterleaved) execution of the
two halves is exactly `SweetService.purchase` (`purchase_eq_read_commit`). -/

/-- First half of `SweetService.purchase`: the `findById` snapshot read. -/
def purchaseRead (db : List Sweet) (id : String) : Option Sweet :=
  findById db id

/-- Second half of `SweetService.purchase`: validation against the snapshot
and `save` of the entity computed from the snapshot, applied to the store as
it is when the save executes. -/
def purchaseCommit (db : List Sweet) (snap : Option Sweet) (quantity : Int) :
    Except String Sweet × List Sweet :=
  match snap with
  | none => (.error "Sweet not found", db)
  | some sweet =>
    if quantity ≤ 0 then (.error "Purchase quantity must be positive", db)
    else if sweet.quantity < quantity then (.error "Insufficient stock", db)
    else
      match sweet.purchase quantity with
      | .error e => (.error e, db)
      | .ok s => (.ok s, saveSweet db s)

/-! ## Sequences of stock-mutating operations (for the quantity invariant) -/

/-- One stock-mutating service call. -/
inductive StockOp
  | purchaseOp (id : String) (q : Int)
  | restockOp (id : String) (q : Int)
  deriving DecidableEq, Repr

/-- Run one service call, keeping the new store only on success. -/
def applyOp (db : List Sweet) : StockOp → Option (List Sweet)
  | .purchaseOp id q =>
    match SweetService.purchase db id q with
    | (.ok _, db2) => some db2
    | (.error _, _) => none
  | .restockOp id q =>
    match SweetService.restock db id q with
    | (.ok _, db2) => some db2
    | (.error _, _) => none

/-- Run a sequence of service calls, all of which must succeed. -/
def runOps (db : List Sweet) : List StockOp → Option (List Sweet)
  | [] => some db
  | op :: ops =>
    match applyOp db op with
    | none => none
    | some db2 => runOps db2 ops

/-! ## Users, tokens, and the auth service -/

/-- Embeds `UserRole` (`entities/User.ts`). -/
inductive UserRole
  | user
  | admin
  deriving DecidableEq, Repr

/-- The `User` entity (`entities/User.ts`): `password` holds the bcrypt
digest (hashed by the `BeforeInsert` hook before the row is stored). -/
structure User where
  id : String
  email : String
  username : String
  password : String
  role : UserRole
  deriving DecidableEq, Repr

/-- Embeds `User.toJSON`: the sanitized projection, without the password digest. -/
structure PublicUser where
  id : String
  email : String
  username : String
  role : UserRole
  deriving DecidableEq, Repr

/-- Embeds `User.toJSON` (`entities/User.ts` lines 70–79). -/
def User.toJSON (u : User) : PublicUser :=
  { id := u.id, email := u.email, username := u.username, role := u.role }

/-- Modelled from the spec: `bcrypt.hash` is the opaque one-way capability
`hash(plaintext) -> digest` of §1/§6 (the bcryptjs library is an external
collaborator, not repository code); modelled as an injective tagging of the
plaintext so that `verify(p, hash(p)) = true` and nothing else verifies. -/
def bcryptHash (plaintext : String) : String :=
  "bcrypt$" ++ plaintext

/-- Modelled from the spec: `verify(plaintext, digest) -> bool`
(behind `User.comparePassword` / `bcrypt.compare`). -/
def bcryptCompare (plaintext digest : String) : Bool :=
  digest == bcryptHash plaintext

/-- The JWT claim set signed by `AuthService.generateToken`:
`{userId, email, role}` plus the expiry added by `expiresIn`. -/
structure TokenClaims where
  userId : String
  email : String
  role : UserRole
  exp : Nat
  deriving DecidableEq, Repr

/-- Modelled from the spec: a signed token is the claim set plus an
HMAC over it (§6: "HMAC-based signed claims"). -/
structure Token where
  claims : TokenClaims
  sig : String × TokenClaims
  deriving DecidableEq, Repr

/-- Modelled from the spec: the HMAC of the claim set under the secret,
modelled as the ideal MAC — the (secret, message) pair itself, so the
signature check succeeds exactly when the token was signed with this secret
over these exact claims. -/
def hmac (secret : String) (c : TokenClaims) : String × TokenClaims :=
  (secret, c)

/-- Modelled from the spec: `jwt.sign(claims, secret, { expiresIn })` —
issuance with expiry (§6). Time is an explicit `now` in seconds. -/
def jwtSign (secret : String) (now expiresIn : Nat)
    (userId email : String) (role : UserRole) : Token :=
  let c : TokenClaims :=
    { userId := userId, email := email, role := role, exp := now + expiresIn }
  { claims := c, sig := hmac secret c }

/-- Modelled from the spec: `jwt.verify(token, secret)` — rejects a bad
signature (tampered claims or wrong secret) and an expired token, otherwise
yields the claims (§6: "verification that rejects tampered or expired
tokens"). -/
def jwtVerify (secret : String) (now : Nat) (t : Token) : Option TokenClaims :=
  if t.sig = hmac secret t.claims ∧ now < t.claims.exp then some t.claims
  else none

/-- Embeds `userRepository.findOne({ where: { email } })`. -/
def findUserByEmail (db : List User) (email : String) : Option User :=
  db.find? (fun u => u.email == email)

/-- Embeds `userRepository.findOne({ where: { id } })`. -/
def findUserById (db : List User) (id : String) : Option User :=
  db.find? (fun u => u.id == id)

/-- Embeds `AuthService.generateToken` (`AuthService.ts` lines 144–157): sign
`{userId, email, role}` with the secret and the configured expiry. -/
def AuthService.generateToken (u : User) (secret : String)
    (now expiresIn : Nat) : Token :=
  jwtSign secret now expiresIn u.id u.email u.role

/-- Embeds `AuthService.register` (`AuthService.ts` lines 47–74): find by the exact
email; conflict error if present; otherwise create the user (digest computed
by the `BeforeInsert` hook, role defaulting to `user`), save, and return the
sanitized user plus a fresh token. The generated uuid is the explicit
`newId` argument. -/
def AuthService.register (db : List User)
    (email username password newId secret : String) (now expiresIn : Nat) :
    Except String (PublicUser × Token) × List User :=
  match findUserByEmail db email with
  | some _ => (.error "User with this email already exists", db)
  | none =>
    let u : User :=
      { id := newId, email := email, username := username,
        password := bcryptHash password, role := .user }
    (.ok (u.toJSON, AuthService.generateToken u secret now expiresIn),
      db ++ [u])

/-- Embeds `AuthService.login` (`AuthService.ts` lines 81–104): find by email —
failure and digest mismatch both throw `Error('Invalid email or password')`;
success returns the sanitized user plus a fresh token. -/
def AuthService.login (db : List User) (email password secret : String)
    (now expiresIn : Nat) : Except String (PublicUser × Token) :=
  match findUserByEmail db email with
  | none => .error "Invalid email or password"
  | some user =>
    if bcryptCompare password user.password then
      .ok (user.toJSON, AuthService.generateToken user secret now expiresIn)
    else .error "Invalid email or password"

/-- Embeds `AuthService.verifyToken` (`AuthService.ts` lines 124–137): `jwt.verify`
(any exception yields `null`), then the claims' `userId` is resolved back to
the live stored user (`findOne` returning `null` when the user no longer
exists). -/
def AuthService.verifyToken (db : List User) (secret : String) (now : Nat)
    (t : Token) : Option User :=
  match jwtVerify secret now t with
  | none => none
  | some c => findUserById db c.userId

/-- Modelled from the spec: `normalizeEmail()` in `registerValidation` /
`loginValidation` (`middleware/validators.ts`) — the express-validator
sanitizer is an external collaborator; §3 specifies the email as
"case-normalized", modelled as ASCII lowercasing. -/
def normalizeEmail (e : String) : String :=
  strLower e

/-- The register request pipeline (`POST /api/auth/register`,
auth routes): `registerValidation` normalizes the email in the body, then
`AuthService.register` runs on the normalized email. -/
def registerApi (db : List User)
    (email username password newId secret : String) (now expiresIn : Nat) :
    Except String (PublicUser × Token) × List User :=
  AuthService.register db (normalizeEmail email) username password newId
    secret now expiresIn

/-! ## Middleware and route pipelines (`middleware/auth.ts`,
`middleware/validators.ts`, `routes/sweets.ts`) -/

/-- An HTTP response as the routes build it: status code, `success` flag,
message, and (for sweet routes) the returned sweet, if any. -/
structure ApiResponse where
  status : Nat
  success : Bool
  message : String
  data : Option Sweet
  deriving DecidableEq, Repr

/-- Embeds `adminOnly` (`middleware/auth.ts` lines 84–102): no attached user →
401 "Authentication required"; attached user whose role is not admin → 403
"Admin access required"; admin → pass (`none`). -/
def adminOnly (user : Option User) : Option ApiResponse :=
  match user with
  | none =>
    some { status := 401, success := false,
           message := "Authentication required", data := none }
  | some u =>
    if u.role ≠ UserRole.admin then
      some { status := 403, success := false,
             message := "Admin access required", data := none }
    else none

/-- An admin-gated route: `adminOnly` runs before the handler; when it
rejects, the response is sent and the handler (the domain operation) never
runs, so the store is returned unchanged. -/
def guardAdmin (user : Option User) (db : List Sweet)
    (handler : List Sweet → ApiResponse × List Sweet) :
    ApiResponse × List Sweet :=
  match adminOnly user with
  | some resp => (resp, db)
  | none => handler db

/-- Case-sensitive substring test, for the routes' JS
`message.includes('not found')` status-code dispatch. -/
def includesSub (s pat : String) : Bool :=
  containsChars pat.data s.data

/-- The handler body of `DELETE /api/sweets/:id` (`routes/sweets.ts`
lines 217–239), after the admin gate. -/
def deleteHandler (db : List Sweet) (id : String) :
    ApiResponse × List Sweet :=
  match SweetService.delete db id with
  | (deleted, db2) =>
    if deleted then
      ({ status := 200, success := true,
         message := "Sweet deleted successfully", data := none }, db2)
    else
      ({ status := 404, success := false,
         message := "Sweet not found", data := none }, db2)

/-- Embeds `DELETE /api/sweets/:id`: `adminOnly`, then the delete handler. -/
def deleteRoute (user : Option User) (db : List Sweet) (id : String) :
    ApiResponse × List Sweet :=
  guardAdmin user db (fun db2 => deleteHandler db2 id)

/-- The handler body of `POST /api/sweets/:id/restock` (`routes/sweets.ts`
lines 279–307), after the admin gate: `restockValidation` requires an integer
quantity ≥ 1 in the body; the caught service error maps to 404 when its
message includes "not found", else 400. -/
def restockHandler (db : List Sweet) (id : String) (quantity : Option Int) :
    ApiResponse × List Sweet :=
  match quantity with
  | none =>
    ({ status := 400, success := false,
       message := "Quantity must be a positive integer", data := none }, db)
  | some q =>
    if q < 1 then
      ({ status := 400, success := false,
         message := "Quantity must be a positive integer", data := none }, db)
    else
      match SweetService.restock db id q with
      | (.error msg, db2) =>
        ({ status := if includesSub msg "not found" then 404 else 400,
           success := false, message := msg, data := none }, db2)
      | (.ok s, db2) =>
        ({ status := 200, success := true,
           message := "Successfully restocked", data := some s }, db2)

/-- Embeds `POST /api/sweets/:id/restock`: `adminOnly`, then the restock
handler. -/
def restockRoute (user : Option User) (db : List Sweet) (id : String)
    (quantity : Option Int) : ApiResponse × List Sweet :=
  guardAdmin user db (fun db2 => restockHandler db2 id quantity)

/-- Embeds `updateSweetValidation` (`middleware/validators.ts` lines 68–97) on
the typed payload: optional name of length 1–200, optional price ≥ 0.01
(≥ 1 in hundredths), optional quantity an integer ≥ 0; category and the url
are enum/type-level checks already captured by the payload type. -/
def updateValid (d : UpdateSweetData) : Bool :=
  (match d.name with
   | some n => decide (1 ≤ n.length) && decide (n.length ≤ 200)
   | none => true)
  && (match d.price with
      | some p => decide (1 ≤ p)
      | none => true)
  && (match d.quantity with
      | some q => decide (0 ≤ q)
      | none => true)

/-- Embeds `PUT /api/sweets/:id` (`routes/sweets.ts` lines 179–211): the
router-wide auth middleware must have attached a user (any role — there is no
`adminOnly` on this route), then `updateSweetValidation`, then
`SweetService.update`; 404 when the sweet does not exist, else 200 with the
updated sweet. -/
def updateRoute (user : Option User) (db : List Sweet) (id : String)
    (d : UpdateSweetData) : ApiResponse × List Sweet :=
  match user with
  | none =>
    ({ status := 401, success := false,
       message := "No authentication token provided", data := none }, db)
  | some _ =>
    if updateValid d then
      match SweetService.update db id d with
      | (none, db2) =>
        ({ status := 404, success := false,
           message := "Sweet not found", data := none }, db2)
      | (some s, db2) =>
        ({ status := 200, success := true,
           message := "Sweet updated successfully", data := some s }, db2)
    else
      ({ status := 400, success := false,
         message := "Validation failed", data := none }, db)

/-! ## Concrete stores used by the witnesses -/

/-- A concrete catalog row with stock 10. -/
def sweetW : Sweet :=
  { id := "s1", name := "Ladoo", description := none, category := .other,
    price := 5000, quantity := 10, imageUrl := none }

/-- A one-row concrete catalog. -/
def dbW : List Sweet := [sweetW]

/-! ## Helper lemmas -/

/-- Saving an entity whose primary key is `id` makes `findById id` return
exactly that entity whenever the row existed before. -/
theorem findById_saveSweet (db : List Sweet) (s2 : Sweet) (id : String)
    (h : s2.id = id) :
    findById (saveSweet db s2) id = (findById db id).map (fun _ => s2) := by
  subst h
  induction db with
  | nil => rfl
  | cons t ts ih =>
    by_cases ht : t.id = s2.id
    · simp [findById, saveSweet, List.find?_cons, ht]
    · have hb : (t.id == s2.id) = false := beq_eq_false_iff_ne.mpr ht
      simp only [findById, saveSweet, List.map_cons, List.find?_cons] at ih ⊢
      simp [hb, ht] at ih ⊢
      exact ih

/-- Membership in a store after a save: each row is the saved entity or an
original row. -/
theorem mem_saveSweet {db : List Sweet} {s t : Sweet}
    (h : t ∈ saveSweet db s) : t = s ∨ t ∈ db := by
  unfold saveSweet at h
  rcases List.mem_map.mp h with ⟨x, hx, rfl⟩
  by_cases hxi : (x.id == s.id) = true
  · left
    rw [if_pos hxi]
  · right
    rw [if_neg hxi]
    exact hx

/-- C1: purchase of an existing sweet with `0 < q ≤ stock` succeeds and
decreases the stored quantity by exactly `q`; with `q >` stock it fails with
the insufficient-stock error and the store is unchanged; with `q ≤ 0` it
fails with the invalid-argument error and the store is unchanged; purchase of
a non-existent id fails with the not-found error; an unspecified amount
defaults to 1. -/
theorem purchase_spec (db : List Sweet) (id : String) (q : Int) :
    (∀ s, findById db id = some s → 0 ≤ s.quantity →
      ((0 < q → q ≤ s.quantity →
        SweetService.purchase db id q =
          (.ok { s with quantity := s.quantity - q },
            saveSweet db { s with quantity := s.quantity - q }) ∧
        findById (SweetService.purchase db id q).2 id =
          some { s with quantity := s.quantity - q }) ∧
      (s.quantity < q →
        SweetService.purchase db id q = (.error "Insufficient stock", db)) ∧
      (q ≤ 0 →
        SweetService.purchase db id q =
          (.error "Purchase quantity must be positive", db)))) ∧
    (findById db id = none →
      SweetService.purchase db id q = (.error "Sweet not found", db)) ∧
    SweetService.purchaseDefault db id = SweetService.purchase db id 1 := by
  refine ⟨?_, ?_, rfl⟩
  · intro s hfind hnn
    have hsid : s.id = id := by
      have := List.find?_some hfind
      simpa using this
    refine ⟨?_, ?_, ?_⟩
    · intro hpos hle
      have hq0 : ¬ q ≤ 0 := not_le.mpr hpos
      have hlt : ¬ s.quantity < q := not_lt.mpr hle
      have heq : SweetService.purchase db id q =
          (.ok { s with quantity := s.quantity - q },
            saveSweet db { s with quantity := s.quantity - q }) := by
        simp [SweetService.purchase, hfind, Sweet.purchase, hq0, hlt]
      refine ⟨heq, ?_⟩
      rw [heq]
      rw [findById_saveSweet db _ id (by simpa using hsid), hfind]
      rfl
    · intro hlt
      have hq0 : ¬ q ≤ 0 := by
        intro hq
        exact absurd (lt_of_le_of_lt hnn hlt) (not_lt.mpr hq)
      simp [SweetService.purchase, hfind, hq0, hlt]
    · intro hq0
      simp [SweetService.purchase, hfind, hq0]
  · intro hnone
    simp [SweetService.purchase, hnone]

/-- Witness for C1 on the concrete catalog: purchase 2 of 10 succeeds leaving
8, purchase 100 fails with the insufficient-stock error, purchase 0 fails
with the invalid-argument error, and purchase of an unknown id fails with the
not-found error. -/
theorem purchase_spec_witness :
    SweetService.purchase dbW "s1" 2 =
      (.ok { sweetW with quantity := sweetW.quantity - 2 },
        saveSweet dbW { sweetW with quantity := sweetW.quantity - 2 }) ∧
    SweetService.purchase dbW "s1" 100 = (.error "Insufficient stock", dbW) ∧
    SweetService.purchase dbW "s1" 0 =
      (.error "Purchase quantity must be positive", dbW) ∧
    SweetService.purchase dbW "nope" 1 = (.error "Sweet not found", dbW) := by
  refine ⟨?_, ?_, ?_, ?_⟩
  · exact (((purchase_spec dbW "s1" 2).1 sweetW (by decide) (by decide)).1
      (by decide) (by decide)).1
  · exact ((purchase_spec dbW "s1" 100).1 sweetW (by decide) (by decide)).2.1
      (by decide)
  · exact ((purchase_spec dbW "s1" 0).1 sweetW (by decide) (by decide)).2.2
      (by decide)
  · exact (purchase_spec dbW "nope" 1).2.1 (by decide)

/-- C4: restock of an existing sweet with `q ≤ 0` (zero included) fails with
the invalid-argument error and the store is unchanged; with `q > 0` it
succeeds and increases the stored quantity by exactly `q`; restock of a
non-existent id fails with the not-found error. -/
theorem restock_spec (db : List Sweet) (id : String) (q : Int) :
    (∀ s, findById db id = some s →
      ((q ≤ 0 →
        SweetService.restock db id q =
          (.error "Restock quantity must be positive", db)) ∧
      (0 < q →
        SweetService.restock db id q =
          (.ok { s with quantity := s.quantity + q },
            saveSweet db { s with quantity := s.quantity + q }) ∧
        findById (SweetService.restock db id q).2 id =
          some { s with quantity := s.quantity + q }))) ∧
    (findById db id = none →
      SweetService.restock db id q = (.error "Sweet not found", db)) := by
  constructor
  · intro s hfind
    have hsid : s.id = id := by
      have := List.find?_some hfind
      simpa using this
    constructor
    · intro hq0
      simp [SweetService.restock, hfind, hq0]
    · intro hpos
      have hq0 : ¬ q ≤ 0 := not_le.mpr hpos
      have heq : SweetService.restock db id q =
          (.ok { s with quantity := s.quantity + q },
            saveSweet db { s with quantity := s.quantity + q }) := by
        simp [SweetService.restock, hfind, Sweet.restock, hq0]
      refine ⟨heq, ?_⟩
      rw [heq]
      rw [findById_saveSweet db _ id (by simpa using hsid), hfind]
      rfl
  · intro hnone
    simp [SweetService.restock, hnone]

/-- Witness for C4 on the concrete catalog: restock 0 and restock −10 both
fail with the invalid-argument error leaving the store unchanged, restock 50
adds exactly 50, and restocking an unknown id fails with the not-found
error. -/
theorem restock_spec_witness :
    SweetService.restock dbW "s1" 0 =
      (.error "Restock quantity must be positive", dbW) ∧
    SweetService.restock dbW "s1" (-10) =
      (.error "Restock quantity must be positive", dbW) ∧
    SweetService.restock dbW "s1" 50 =
      (.ok { sweetW with quantity := sweetW.quantity + 50 },
        saveSweet dbW { sweetW with quantity := sweetW.quantity + 50 }) ∧
    SweetService.restock dbW "nope" 5 = (.error "Sweet not found", dbW) := by
  refine ⟨?_, ?_, ?_, ?_⟩
  · exact ((restock_spec dbW "s1" 0).1 sweetW (by decide)).1 (by decide)
  · exact ((restock_spec dbW "s1" (-10)).1 sweetW (by decide)).1 (by decide)
  · exact (((restock_spec dbW "s1" 50).1 sweetW (by decide)).2 (by decide)).1
  · exact (restock_spec dbW "nope" 5).2 (by decide)

/-- C3: non-negative stock is an invariant — if every sweet in the store has
non-negative quantity, then after any sequence of successful service
purchase/restock calls every sweet still has non-negative quantity. -/
theorem quantity_invariant (ops : List StockOp) :
    ∀ db db2 : List Sweet, (∀ s ∈ db, 0 ≤ s.quantity) →
      runOps db ops = some db2 → ∀ s ∈ db2, 0 ≤ s.quantity := by
  induction ops with
  | nil =>
    intro db db2 hinv hrun
    simp only [runOps, Option.some.injEq] at hrun
    exact hrun ▸ hinv
  | cons op ops ih =>
    intro db db2 hinv hrun
    simp only [runOps] at hrun
    cases happ : applyOp db op with
    | none => rw [happ] at hrun; cases hrun
    | some db1 =>
      rw [happ] at hrun
      refine ih db1 db2 ?_ hrun
      cases op with
      | purchaseOp id q =>
        cases hfind : findById db id with
        | none => simp [applyOp, SweetService.purchase, hfind] at happ
        | some sweet =>
          by_cases hq : q ≤ 0
          · simp [applyOp, SweetService.purchase, hfind, hq] at happ
          · by_cases hlt : sweet.quantity < q
            · simp [applyOp, SweetService.purchase, hfind, hq, hlt] at happ
            · simp only [applyOp, SweetService.purchase, Sweet.purchase,
                hfind, if_neg hq, if_neg hlt, Option.some.injEq] at happ
              subst happ
              intro s hs
              rcases mem_saveSweet hs with h | h
              · subst h
                have hle : q ≤ sweet.quantity := not_lt.mp hlt
                show 0 ≤ sweet.quantity - q
                omega
              · exact hinv s h
      | restockOp id q =>
        cases hfind : findById db id with
        | none => simp [applyOp, SweetService.restock, hfind] at happ
        | some sweet =>
          by_cases hq : q ≤ 0
          · simp [applyOp, SweetService.restock, hfind, hq] at happ
          · simp only [applyOp, SweetService.restock, Sweet.restock,
              hfind, if_neg hq, Option.some.injEq] at happ
            subst happ
            intro s hs
            rcases mem_saveSweet hs with h | h
            · subst h
              have hsw : 0 ≤ sweet.quantity :=
                hinv sweet (List.mem_of_find?_eq_some hfind)
              have hpos : 0 < q := not_le.mp hq
              show 0 ≤ sweet.quantity + q
              omega
            · exact hinv s h

/-- Witness for C3: a concrete successful sequence — purchase 2, restock 50,
purchase 58 — starting from stock 10, ending with stock 0, still
non-negative. -/
theorem quantity_invariant_witness :
    runOps dbW
      [StockOp.purchaseOp "s1" 2, StockOp.restockOp "s1" 50,
        StockOp.purchaseOp "s1" 58] =
      some [{ sweetW with quantity := 0 }] ∧
    ∀ s ∈ [{ sweetW with quantity := 0 }], 0 ≤ s.quantity := by
  constructor
  · decide
  · exact quantity_invariant
      [StockOp.purchaseOp "s1" 2, StockOp.restockOp "s1" 50,
        StockOp.purchaseOp "s1" 58] dbW _ (by decide) (by decide)

/-- Sanity link for the split: the two halves of `SweetService.purchase` run
back-to-back with no interleaving are exactly `SweetService.purchase`. -/
theorem purchase_eq_read_commit (db : List Sweet) (id : String) (q : Int) :
    SweetService.purchase db id q = purchaseCommit db (purchaseRead db id) q :=
  rfl

/-- A concrete catalog row with stock 1, for the interleaving run. -/
def sweetOne : Sweet :=
  { id := "s1", name := "Barfi", description := none, category := .other,
    price := 4000, quantity := 1, imageUrl := none }

/-- A one-row catalog with stock 1. -/
def dbOne : List Sweet := [sweetOne]

/-- C2 is refuted by the code: `SweetService.purchase` is a plain
`findById`-then-`save` with no conditional write, transaction, or per-id
lock, so two concurrent purchases of 1 against a stock of 1 — both reading
before either saves (interleaving read₁, read₂, commit₁, commit₂) — BOTH
succeed, although their combined amount 2 exceeds the available stock 1.
Each commit writes the quantity computed from its own stale snapshot. -/
theorem purchase_read_write_race :
    sweetOne.quantity = 1 ∧
    sweetOne.quantity < 1 + 1 ∧
    (purchaseCommit dbOne (purchaseRead dbOne "s1") 1).1 =
      .ok { sweetOne with quantity := 0 } ∧
    (purchaseCommit
        (purchaseCommit dbOne (purchaseRead dbOne "s1") 1).2
        (purchaseRead dbOne "s1") 1).1 =
      .ok { sweetOne with quantity := 0 } :=
  ⟨rfl, by decide, rfl, rfl⟩

/-- C5: for the admin-only routes (delete, restock), a request whose attached
identity is not an admin is rejected with the 403 authorization failure and
the store is unchanged — for every possible handler, so the domain operation
never runs — and a request with no attached identity is rejected with the
401 authentication failure instead, likewise without running the handler. -/
theorem admin_gate_spec (u : User) (db : List Sweet) (id : String)
    (quantity : Option Int) (k : List Sweet → ApiResponse × List Sweet) :
    (u.role ≠ UserRole.admin →
      guardAdmin (some u) db k =
        ({ status := 403, success := false,
           message := "Admin access required", data := none }, db) ∧
      deleteRoute (some u) db id =
        ({ status := 403, success := false,
           message := "Admin access required", data := none }, db) ∧
      restockRoute (some u) db id quantity =
        ({ status := 403, success := false,
           message := "Admin access required", data := none }, db)) ∧
    (guardAdmin none db k =
      ({ status := 401, success := false,
         message := "Authentication required", data := none }, db) ∧
    deleteRoute none db id =
      ({ status := 401, success := false,
         message := "Authentication required", data := none }, db) ∧
    restockRoute none db id quantity =
      ({ status := 401, success := false,
         message := "Authentication required", data := none }, db)) := by
  constructor
  · intro hrole
    refine ⟨?_, ?_, ?_⟩ <;>
      simp [guardAdmin, deleteRoute, restockRoute, adminOnly, hrole]
  · refine ⟨?_, ?_, ?_⟩ <;>
      simp [guardAdmin, deleteRoute, restockRoute, adminOnly]

/-- A concrete non-admin user. -/
def userW : User :=
  { id := "u1", email := "user@x.com", username := "regular",
    password := bcryptHash "secret123", role := .user }

/-- A concrete handler recording that the domain operation ran. -/
def handlerW : List Sweet → ApiResponse × List Sweet :=
  fun db2 =>
    ({ status := 200, success := true, message := "ran", data := none }, db2)

/-- Witness for C5: the concrete non-admin user is rejected with 403 on both
admin routes and on any handler; the absent identity is rejected with 401. -/
theorem admin_gate_spec_witness :
    (guardAdmin (some userW) dbW handlerW =
      ({ status := 403, success := false,
         message := "Admin access required", data := none }, dbW) ∧
      deleteRoute (some userW) dbW "s1" =
        ({ status := 403, success := false,
           message := "Admin access required", data := none }, dbW) ∧
      restockRoute (some userW) dbW "s1" (some 5) =
        ({ status := 403, success := false,
           message := "Admin access required", data := none }, dbW)) ∧
    guardAdmin none dbW handlerW =
      ({ status := 401, success := false,
         message := "Authentication required", data := none }, dbW) :=
  ⟨(admin_gate_spec userW dbW "s1" (some 5) handlerW).1 (by decide),
    ((admin_gate_spec userW dbW "s1" (some 5) handlerW).2).1⟩

/-- C7: login with an existing email but a wrong password and login with a
non-existent email fail with the very same authentication error — the two
outcomes are equal, giving no signal distinguishing the cases. -/
theorem login_uniform_failure (db : List User) (e1 p1 e2 p2 secret : String)
    (now expiresIn : Nat) (u : User)
    (hfound : findUserByEmail db e1 = some u)
    (hwrong : bcryptCompare p1 u.password = false)
    (hnone : findUserByEmail db e2 = none) :
    AuthService.login db e1 p1 secret now expiresIn =
      .error "Invalid email or password" ∧
    AuthService.login db e2 p2 secret now expiresIn =
      .error "Invalid email or password" ∧
    AuthService.login db e1 p1 secret now expiresIn =
      AuthService.login db e2 p2 secret now expiresIn := by
  have h1 : AuthService.login db e1 p1 secret now expiresIn =
      .error "Invalid email or password" := by
    simp [AuthService.login, hfound, hwrong]
  have h2 : AuthService.login db e2 p2 secret now expiresIn =
      .error "Invalid email or password" := by
    simp [AuthService.login, hnone]
  exact ⟨h1, h2, h1.trans h2.symm⟩

/-- Witness for C7: against the concrete store, a wrong password for the
stored user and a login for an unknown email produce the identical error. -/
theorem login_uniform_failure_witness :
    AuthService.login [userW] "user@x.com" "wrong-pw" "sec" 0 86400 =
      .error "Invalid email or password" ∧
    AuthService.login [userW] "ghost@x.com" "whatever" "sec" 0 86400 =
      .error "Invalid email or password" ∧
    AuthService.login [userW] "user@x.com" "wrong-pw" "sec" 0 86400 =
      AuthService.login [userW] "ghost@x.com" "whatever" "sec" 0 86400 :=
  login_uniform_failure [userW] "user@x.com" "wrong-pw" "ghost@x.com"
    "whatever" "sec" 0 86400 userW (by decide) (by decide) (by decide)

/-- C6: through the register pipeline (whose validation layer normalizes the
email's case), registering an email already present in a case-normalized
store — compared case-insensitively — fails with the conflict error and the
store (including the pre-existing user record) is unchanged; registering an
email not present creates the user (digested password, default role) and
returns the sanitized user plus a fresh token. -/
theorem register_conflict_spec (db : List User)
    (email username password newId secret : String) (now expiresIn : Nat)
    (hnorm : ∀ u ∈ db, strLower u.email = u.email) :
    ((∃ u ∈ db, strLower u.email = strLower email) →
      registerApi db email username password newId secret now expiresIn =
        (.error "User with this email already exists", db)) ∧
    ((∀ u ∈ db, strLower u.email ≠ strLower email) →
      registerApi db email username password newId secret now expiresIn =
        (.ok ({ id := newId, email := strLower email, username := username,
                role := .user },
              jwtSign secret now expiresIn newId (strLower email) .user),
          db ++ [{ id := newId, email := strLower email,
                   username := username,
                   password := bcryptHash password, role := .user }])) := by
  constructor
  · rintro ⟨u, hu, he⟩
    have hue : u.email = normalizeEmail email := (hnorm u hu).symm.trans he
    have hsome : (findUserByEmail db (normalizeEmail email)).isSome := by
      unfold findUserByEmail
      rw [List.find?_isSome]
      exact ⟨u, hu, beq_iff_eq.mpr hue⟩
    obtain ⟨v, hv⟩ := Option.isSome_iff_exists.mp hsome
    unfold registerApi AuthService.register
    rw [hv]
  · intro hne
    have hnone : findUserByEmail db (normalizeEmail email) = none := by
      unfold findUserByEmail
      rw [List.find?_eq_none]
      intro x hx hpx
      have hxe : x.email = strLower email := by simpa using hpx
      exact hne x hx ((hnorm x hx).trans hxe)
    unfold registerApi AuthService.register
    rw [hnone]
    rfl

/-- Witness for C6: on a store holding the lowercase email "user@x.com",
registering "User@X.COM" (same email up to case) hits the conflict error and
leaves the store unchanged, and registering the fresh email "new@x.com"
creates the user and returns the sanitized user plus a token. -/
theorem register_conflict_spec_witness :
    registerApi [userW] "User@X.COM" "dup" "password1" "u9" "sec" 0 86400 =
      (.error "User with this email already exists", [userW]) ∧
    registerApi [userW] "new@x.com" "fresh" "password2" "u9" "sec" 0 86400 =
      (.ok ({ id := "u9", email := strLower "new@x.com", username := "fresh",
              role := .user },
            jwtSign "sec" 0 86400 "u9" (strLower "new@x.com") .user),
        [userW] ++ [{ id := "u9", email := strLower "new@x.com",
                      username := "fresh",
                      password := bcryptHash "password2",
                      role := .user }]) :=
  ⟨(register_conflict_spec [userW] "User@X.COM" "dup" "password1" "u9" "sec"
      0 86400 (by decide)).1 ⟨userW, by decide, by decide⟩,
    (register_conflict_spec [userW] "new@x.com" "fresh" "password2" "u9" "sec"
      0 86400 (by decide)).2 (by decide)⟩

/-- C9: token verification returns `null` on every failure — a failed
`jwt.verify` in general, a signature that is not the HMAC of the carried
claims under the service secret, an expired token, tampered claims under an
otherwise valid signature, and claims whose `userId` no longer resolves to a
stored user — and a freshly issued token of a stored user resolves to the
live stored record (re-read from the store, not taken from the claims). -/
theorem verifyToken_spec (db : List User) (secret : String) (now : Nat)
    (t : Token) :
    (jwtVerify secret now t = none →
      AuthService.verifyToken db secret now t = none) ∧
    (t.sig ≠ hmac secret t.claims →
      AuthService.verifyToken db secret now t = none) ∧
    (t.claims.exp ≤ now →
      AuthService.verifyToken db secret now t = none) ∧
    (∀ c, jwtVerify secret now t = some c → findUserById db c.userId = none →
      AuthService.verifyToken db secret now t = none) ∧
    (t.sig = hmac secret t.claims → ∀ c2 : TokenClaims, c2 ≠ t.claims →
      AuthService.verifyToken db secret now { claims := c2, sig := t.sig } =
        none) ∧
    (∀ (u ulive : User) (issuedAt expiresIn : Nat),
      findUserById db u.id = some ulive → now < issuedAt + expiresIn →
      AuthService.verifyToken db secret now
        (AuthService.generateToken u secret issuedAt expiresIn) =
        some ulive) := by
  refine ⟨?_, ?_, ?_, ?_, ?_, ?_⟩
  · intro h
    simp [AuthService.verifyToken, h]
  · intro h
    simp [AuthService.verifyToken, jwtVerify, h]
  · intro h
    have hlt : ¬ now < t.claims.exp := not_lt.mpr h
    simp [AuthService.verifyToken, jwtVerify, hlt]
  · intro c hc hnone
    simp [AuthService.verifyToken, hc, hnone]
  · intro hsig c2 hne
    have hbad : ({ claims := c2, sig := t.sig } : Token).sig ≠
        hmac secret ({ claims := c2, sig := t.sig } : Token).claims := by
      rw [hsig]
      unfold hmac
      intro hh
      exact hne ((Prod.mk.injEq _ _ _ _ ▸ hh).2.symm ▸ rfl)
    simp [AuthService.verifyToken, jwtVerify, hbad]
  · intro u ulive issuedAt expiresIn hfind hlt
    simp [AuthService.verifyToken, AuthService.generateToken, jwtSign,
      jwtVerify, hmac, hlt, hfind]

/-- Witness for C9 on the concrete store: a fresh token for the stored user
verifies to that user's record; the same token expired, with tampered claims,
or with the user removed from the store all verify to `null`. -/
theorem verifyToken_spec_witness :
    AuthService.verifyToken [userW] "sec" 100
      (AuthService.generateToken userW "sec" 0 86400) = some userW ∧
    AuthService.verifyToken [userW] "sec" 86400
      (AuthService.generateToken userW "sec" 0 86400) = none ∧
    AuthService.verifyToken [userW] "sec" 100
      { claims := { userId := "u1", email := "user@x.com",
                    role := .admin, exp := 86400 },
        sig := (AuthService.generateToken userW "sec" 0 86400).sig } =
      none ∧
    AuthService.verifyToken [] "sec" 100
      (AuthService.generateToken userW "sec" 0 86400) = none := by
  refine ⟨?_, ?_, ?_, ?_⟩
  · exact (verifyToken_spec [userW] "sec" 100
      (AuthService.generateToken userW "sec" 0 86400)).2.2.2.2.2
      userW userW 0 86400 (by decide) (by decide)
  · exact (verifyToken_spec [userW] "sec" 86400
      (AuthService.generateToken userW "sec" 0 86400)).2.2.1 (by decide)
  · exact (verifyToken_spec [userW] "sec" 100
      (AuthService.generateToken userW "sec" 0 86400)).2.2.2.2.1 rfl
      { userId := "u1", email := "user@x.com", role := .admin, exp := 86400 }
      (by decide)
  · exact (verifyToken_spec [] "sec" 100
      (AuthService.generateToken userW "sec" 0 86400)).2.2.2.1
      (AuthService.generateToken userW "sec" 0 86400).claims (by decide) rfl

/-- An empty pattern occurs in every character list. -/
theorem containsChars_nil (l : List Char) : containsChars [] l = true := by
  cases l with
  | nil => rfl
  | cons c cs => rfl

/-- An empty `LIKE` pattern matches every value. -/
theorem likeContains_empty (v : String) : likeContains v "" = true :=
  containsChars_nil _

/-- The WHERE clause of `SweetService.search`, unfolded into the conjunction
of the individual filter conditions; an absent filter imposes no constraint,
and the truthiness special case for an empty name string coincides with the
substring reading because the empty pattern matches everything. -/
theorem matchesSearch_iff (p : SearchParams) (s : Sweet) :
    matchesSearch p s = true ↔
      (∀ n, p.name = some n → likeContains s.name n = true) ∧
      (∀ c, p.category = some c → s.category = c) ∧
      (∀ lo, p.minPrice = some lo → lo ≤ s.price) ∧
      (∀ hi, p.maxPrice = some hi → s.price ≤ hi) := by
  have h1 : (match p.name with
      | some n => if n.isEmpty then true else likeContains s.name n
      | none => true) = true ↔
      (∀ n, p.name = some n → likeContains s.name n = true) := by
    cases hn : p.name with
    | none => simp
    | some n =>
      by_cases hne : n.isEmpty
      · have hn0 : n = "" := (String.isEmpty_iff n).mp hne
        subst hn0
        simp [likeContains_empty]
      · simp [hne]
  have h2 : (match p.category with
      | some c => s.category == c
      | none => true) = true ↔
      (∀ c, p.category = some c → s.category = c) := by
    cases hc : p.category with
    | none => simp
    | some c => simp
  have h3 : (match p.minPrice, p.maxPrice with
      | some lo, some hi => decide (lo ≤ s.price) && decide (s.price ≤ hi)
      | some lo, none => decide (lo ≤ s.price)
      | none, some hi => decide (s.price ≤ hi)
      | none, none => true) = true ↔
      ((∀ lo, p.minPrice = some lo → lo ≤ s.price) ∧
       (∀ hi, p.maxPrice = some hi → s.price ≤ hi)) := by
    cases hlo : p.minPrice with
    | none => cases hhi : p.maxPrice with
      | none => simp
      | some hi => simp
    | some lo => cases hhi : p.maxPrice with
      | none => simp
      | some hi => simp
  unfold matchesSearch
  rw [Bool.and_eq_true, Bool.and_eq_true, h1, h2, h3]
  tauto

/-- C8: search returns exactly the catalog rows satisfying every provided
filter conjunctively — name as ASCII-case-insensitive substring, category as
exact match, price bounds inclusive (one- or two-sided), absent filters
unconstrained — ordered by name ascending; and a two-sided price range with
`minPrice > maxPrice` yields the empty result rather than an error. -/
theorem search_spec (db : List Sweet) (p : SearchParams) (s : Sweet) :
    (s ∈ SweetService.search db p ↔
      s ∈ db ∧
      (∀ n, p.name = some n → likeContains s.name n = true) ∧
      (∀ c, p.category = some c → s.category = c) ∧
      (∀ lo, p.minPrice = some lo → lo ≤ s.price) ∧
      (∀ hi, p.maxPrice = some hi → s.price ≤ hi)) ∧
    List.Sorted sweetNameLe (SweetService.search db p) ∧
    (∀ lo hi, p.minPrice = some lo → p.maxPrice = some hi → hi < lo →
      SweetService.search db p = []) := by
  refine ⟨?_, ?_, ?_⟩
  · unfold SweetService.search
    rw [List.mem_insertionSort, List.mem_filter, matchesSearch_iff]
  · exact List.sorted_insertionSort sweetNameLe _
  · intro lo hi hl hh hlt
    have hfil : db.filter (matchesSearch p) = [] := by
      rw [List.filter_eq_nil_iff]
      intro a ha hma
      obtain ⟨-, -, h3, h4⟩ := (matchesSearch_iff p a).mp hma
      have hx := h3 lo hl
      have hy := h4 hi hh
      omega
    unfold SweetService.search
    rw [hfil]
    rfl

/-- A candy row for the search witness. -/
def sweetCandy : Sweet :=
  { id := "s2", name := "Candy Cane", description := none, category := .candy,
    price := 300, quantity := 5, imageUrl := none }

/-- A cake row for the search witness. -/
def sweetCake : Sweet :=
  { id := "s3", name := "Apple Cake", description := none, category := .cake,
    price := 700, quantity := 3, imageUrl := none }

/-- A three-row catalog for the search witness. -/
def dbS : List Sweet := [sweetW, sweetCandy, sweetCake]

/-- Filters: category candy, price between 2.00 and 5.00 inclusive. -/
def pCandy : SearchParams :=
  { name := none, category := some .candy, minPrice := some 200,
    maxPrice := some 500 }

/-- Filters with `minPrice > maxPrice`. -/
def pBad : SearchParams :=
  { name := none, category := none, minPrice := some 500,
    maxPrice := some 200 }

/-- Witness for C8: on the concrete catalog, the candy row priced 3.00 is in
the result of the candy/2.00–5.00 search, the result is name-sorted, and the
inverted price range returns the empty list. -/
theorem search_spec_witness :
    sweetCandy ∈ SweetService.search dbS pCandy ∧
    List.Sorted sweetNameLe (SweetService.search dbS pCandy) ∧
    SweetService.search dbS pBad = [] := by
  refine ⟨?_, (search_spec dbS pCandy sweetCandy).2.1,
    (search_spec dbS pBad sweetCandy).2.2 500 200 rfl rfl (by decide)⟩
  refine (search_spec dbS pCandy sweetCandy).1.mpr
    ⟨by decide, ?_, ?_, ?_, ?_⟩
  · intro n hn
    simp [pCandy] at hn
  · intro c hc
    simp only [pCandy, Option.some.injEq] at hc
    rw [← hc]
    rfl
  · intro lo hl
    simp only [pCandy, Option.some.injEq] at hl
    rw [← hl]
    decide
  · intro hi hh
    simp only [pCandy, Option.some.injEq] at hh
    rw [← hh]
    decide

/-- C10: the update route is gated only by authentication — any attached
identity, of any role, reaching an existing sweet with a validator-accepted
payload gets a 200 and the merged record saved; in particular a payload
carrying only a quantity is accepted by the validator for every `q ≥ 0` and
sets the stored quantity directly to `q`, with no insufficient-stock or
positivity check on this path; with no identity the route fails 401 and the
store is unchanged. -/
theorem update_auth_only_spec (u : User) (db : List Sweet) (id : String)
    (s : Sweet) (d : UpdateSweetData) (q : Int) :
    (findById db id = some s → updateValid d = true →
      updateRoute (some u) db id d =
        ({ status := 200, success := true,
           message := "Sweet updated successfully",
           data := some (applyUpdate s d) },
          saveSweet db (applyUpdate s d))) ∧
    (0 ≤ q →
      updateValid { name := none, description := none, category := none,
                    price := none, quantity := some q,
                    imageUrl := none } = true ∧
      (applyUpdate s { name := none, description := none, category := none,
                       price := none, quantity := some q,
                       imageUrl := none }).quantity = q) ∧
    updateRoute none db id d =
      ({ status := 401, success := false,
         message := "No authentication token provided", data := none },
        db) := by
  refine ⟨?_, ?_, rfl⟩
  · intro hfind hvalid
    simp [updateRoute, hvalid, SweetService.update, hfind]
  · intro hq
    refine ⟨?_, rfl⟩
    simp [updateValid, hq]

/-- The quantity-only update payload used by the witness: set stock to 0. -/
def dUpd : UpdateSweetData :=
  { name := none, description := none, category := none, price := none,
    quantity := some 0, imageUrl := none }

/-- Witness for C10: the concrete non-admin user updates the sweet through
the route, directly setting its stock from 10 to 0 with a 200 response; the
same request with no identity is rejected 401 with the store unchanged. -/
theorem update_auth_only_spec_witness :
    updateRoute (some userW) dbW "s1" dUpd =
      ({ status := 200, success := true,
         message := "Sweet updated successfully",
         data := some (applyUpdate sweetW dUpd) },
        saveSweet dbW (applyUpdate sweetW dUpd)) ∧
    updateValid dUpd = true ∧
    (applyUpdate sweetW dUpd).quantity = 0 ∧
    updateRoute none dbW "s1" dUpd =
      ({ status := 401, success := false,
         message := "No authentication token provided", data := none },
        dbW) :=
  ⟨(update_auth_only_spec userW dbW "s1" sweetW dUpd 0).1 (by decide)
      (by decide),
    ((update_auth_only_spec userW dbW "s1" sweetW dUpd 0).2.1 (by decide)).1,
    ((update_auth_only_spec userW dbW "s1" sweetW dUpd 0).2.1 (by decide)).2,
    (update_auth_only_spec userW dbW "s1" sweetW dUpd 0).2.2⟩

end SweetShop
